import Mathlib

set_option autoImplicit false

/-!
Verification of `langchain_community/document_loaders/parsers/pdf.py`.

Python strings are modelled as `List Char`, Python's `None` as `Option.none`,
raised exceptions as `Except.error`.  Byte buffers are modelled as `List Nat`
(one entry per byte).  Definitions follow the Python source line by line; the
few external collaborators (Pillow decoding, PNG encoding, the OCR parser,
`datetime.strptime`) are modelled at the granularity the code observes them.
-/

namespace PdfParsers

/-- `_PARAGRAPH_DELIMITER[0] = "\n\n\n"`, the strongest paragraph boundary. -/
def delimTriple : List Char := "\n\n\n".data

/-- `_PARAGRAPH_DELIMITER[1] = "\n\n"`, the weaker paragraph boundary
(also `_PARAGRAPH_DELIMITER[-1]`, the delimiter used by the final fallback). -/
def delimDouble : List Char := "\n\n".data

/-- Python truthiness of an optional string: `None` and `""` are both falsy. -/
def truthy : Option (List Char) → Bool
  | none => false
  | some t => !t.isEmpty

/-- `"\n\n".join(filter(lambda x: x, extras))` from `_merge_text_and_extras`. -/
def joinExtras (extras : List (List Char)) : List Char :=
  List.intercalate delimDouble (extras.filter (fun x => !x.isEmpty))

/-- Helper for Python `str.rfind`: highest index `i ≤ n` such that `pat`
occurs in `s` starting at `i`, scanning downwards from `n`. -/
def rfindAux (s pat : List Char) : Nat → Option Nat
  | 0 => if pat.isPrefixOf s then some 0 else none
  | n + 1 =>
    if pat.isPrefixOf (s.drop (n + 1)) then some (n + 1) else rfindAux s pat n

/-- Python `s.rfind(pat)` for non-empty `pat`; `none` models the -1 result. -/
def rfind (s pat : List Char) : Option Nat :=
  rfindAux s pat s.length

/-- The found-boundary splice in `_recurs_merge_text_and_extras`:
`text[:pos] + (delim + str_extras if str_extras else "") + text[pos:]`. -/
def spliceExtras (extras : List (List Char)) (text : List Char) (pos : Nat)
    (delim : List Char) : List Char :=
  let strExtras := joinExtras extras
  let allExtras := if strExtras.isEmpty then [] else delim ++ strExtras
  text.take pos ++ allExtras ++ text.drop pos

/-- `_recurs_merge_text_and_extras(extras, text_from_page, recurs=False)`:
the delimiters are tried strongest first; at the last occurrence the extras
are spliced in; `none` models the for-else `all_text = None`.  The function
is called with `recurs=False` only from the `recurs=True` level, so the
one-level look-back recursion is unrolled into this base function. -/
def recursMergeBase (extras : List (List Char)) (text : List Char) :
    Option (List Char) :=
  if extras.isEmpty then some text
  else
    match rfind text delimTriple with
    | some pos => some (spliceExtras extras text pos delimTriple)
    | none =>
      match rfind text delimDouble with
      | some pos => some (spliceExtras extras text pos delimDouble)
      | none => none

/-- `_recurs_merge_text_and_extras(extras, text_from_page, recurs=True)`:
after finding the last boundary it searches the text before that boundary for
a penultimate boundary (`recurs=False` call); a truthy recursive result is
kept, otherwise the extras are spliced at the boundary found here. -/
def recursMergeTop (extras : List (List Char)) (text : List Char) :
    Option (List Char) :=
  if extras.isEmpty then some text
  else
    match rfind text delimTriple with
    | some pos =>
      let previousText := recursMergeBase extras (text.take pos)
      if truthy previousText then some (previousText.getD [] ++ text.drop pos)
      else some (spliceExtras extras text pos delimTriple)
    | none =>
      match rfind text delimDouble with
      | some pos =>
        let previousText := recursMergeBase extras (text.take pos)
        if truthy previousText then some (previousText.getD [] ++ text.drop pos)
        else some (spliceExtras extras text pos delimDouble)
      | none => none

/-- `_merge_text_and_extras(extras, text_from_page)`: run the recursive merge;
a falsy result (`None` or `""`) falls back to appending the joined extras,
preceded by `_PARAGRAPH_DELIMITER[-1]`, to the end of the body text. -/
def mergeTextAndExtras (extras : List (List Char)) (text : List Char) :
    List Char :=
  let allText := recursMergeTop extras text
  if truthy allText then allText.getD []
  else
    let strExtras := joinExtras extras
    let allExtras := if strExtras.isEmpty then [] else delimDouble ++ strExtras
    text ++ allExtras

theorem infix_of_rfindAux_eq_some {s pat : List Char} {n i : Nat}
    (h : rfindAux s pat n = some i) : pat <:+: s := by
  induction n with
  | zero =>
    unfold rfindAux at h
    split at h
    · rename_i hp
      exact (List.isPrefixOf_iff_prefix.mp hp).isInfix
    · simp at h
  | succ n ih =>
    unfold rfindAux at h
    split at h
    · rename_i hp
      have hpre : pat <+: s.drop (n + 1) := List.isPrefixOf_iff_prefix.mp hp
      exact hpre.isInfix.trans (List.drop_suffix (n + 1) s).isInfix
    · exact ih h

theorem rfind_eq_none {s pat : List Char} (h : ¬ pat <:+: s) :
    rfind s pat = none := by
  cases hr : rfind s pat with
  | none => rfl
  | some i => exact absurd (infix_of_rfindAux_eq_some hr) h

/-- C3: for every body text, merging with an empty list of auxiliary content
blocks returns the body text unchanged (`_merge_text_and_extras([], text)`
equals `text` byte for byte). -/
theorem merge_empty_extras_id (text : List Char) :
    mergeTextAndExtras [] text = text := by
  by_cases h : text.isEmpty
  · have : text = [] := by simpa [List.isEmpty_iff] using h
    subst this
    simp [mergeTextAndExtras, recursMergeTop, truthy, joinExtras,
      List.intercalate]
  · simp [mergeTextAndExtras, recursMergeTop, truthy, h]

/-- C4: for body text `"A\n\n\nB\n\nC"` (a double boundary strictly before
the trailing single boundary) and the single auxiliary block `"X"`, the
merger splices `"X"` at the `"\n\n\n"` boundary, i.e. before `"B\n\nC"`,
not after the trailing `"\n\n"` boundary; the one-level recursive look-back
on the text before that boundary (`"A"`) finds nothing, so the merge falls
back to the last boundary found at the top level. -/
theorem merge_penultimate_boundary_example :
    mergeTextAndExtras ["X".data] "A\n\n\nB\n\nC".data
        = "A\n\n\nX\n\n\nB\n\nC".data
      ∧ recursMergeBase ["X".data] "A".data = none := by
  constructor
  · decide
  · decide

/-- C5: for every body text in which neither `"\n\n"` nor `"\n\n\n"` occurs
and every single non-empty auxiliary block, the merger returns
`text + "\n\n" + block`: the joined auxiliary text is appended at the end,
preceded by the paragraph delimiter. -/
theorem merge_no_boundary_appends (text xblock : List Char)
    (hx : xblock ≠ [])
    (h2 : ¬ delimDouble <:+: text) (h3 : ¬ delimTriple <:+: text) :
    mergeTextAndExtras [xblock] text = text ++ delimDouble ++ xblock := by
  have h3n : rfind text delimTriple = none := rfind_eq_none h3
  have h2n : rfind text delimDouble = none := rfind_eq_none h2
  simp [mergeTextAndExtras, recursMergeTop, h3n, h2n, truthy, joinExtras,
    List.intercalate, hx, List.append_assoc]

/-- Witness for C5 at a concrete input. -/
theorem merge_no_boundary_appends_witness :
    mergeTextAndExtras ["X".data] "abc".data
      = "abc".data ++ delimDouble ++ "X".data :=
  merge_no_boundary_appends "abc".data "X".data (by decide) (by decide)
    (by decide)

/-! ## Metadata normalizer and validator

`_purge_metadata` and `_validate_metadata`.  Python values are modelled by
`PValue`: strings, ints, bools (a distinct runtime type in Python, but an
`int` for `isinstance` checks) and a catch-all constructor carrying the
`str()` representation of any other value. -/

inductive PValue where
  | pstr (s : List Char)
  | pint (n : Int)
  | pbool (b : Bool)
  | pother (r : List Char)
  deriving DecidableEq

/-- A Python dict in insertion order. -/
abbrev Meta := List (List Char × PValue)

/-- `if type(v) not in [str, int]: v = str(v)` — note `type(True)` is `bool`,
so booleans are coerced to their string representation as well. -/
def coerceValue : PValue → PValue
  | PValue.pstr s => PValue.pstr s
  | PValue.pint n => PValue.pint n
  | PValue.pbool b => PValue.pstr (if b then "True".data else "False".data)
  | PValue.pother r => PValue.pstr r

/-- The apostrophe character (code 39). -/
def aposChar : Char := Char.ofNat 39

/-- ASCII lowercasing of one character, modelling Python `str.lower()` on the
ASCII keys this module manipulates. -/
def lowerChar (c : Char) : Char :=
  if 65 ≤ c.toNat ∧ c.toNat ≤ 90 then Char.ofNat (c.toNat + 32) else c

/-- `if k.startswith("/"): k = k[1:]` — strips exactly one leading slash. -/
def stripOneSlash : List Char → List Char
  | [] => []
  | c :: rest => if c = '/' then rest else c :: rest

/-- The key normalization applied to every key: strip one leading slash, then
lowercase (`k = k[1:]` and `k = k.lower()`). -/
def normalizeKey (k : List Char) : List Char :=
  (stripOneSlash k).map lowerChar

/-- Python dict assignment `d[k] = v`: replace in place if the key is
present, otherwise append. -/
def dictInsert (d : Meta) (k : List Char) (v : PValue) : Meta :=
  if d.any (fun p => decide (p.1 = k)) then
    d.map (fun p => if p.1 = k then (k, v) else p)
  else d ++ [(k, v)]

/-- Python `d.get(k)` / `k in d`. -/
def dictFind (d : Meta) (k : List Char) : Option PValue :=
  (d.find? (fun p => decide (p.1 = k))).map (fun p => p.2)

def isDigitChar (c : Char) : Bool := decide (48 ≤ c.toNat ∧ c.toNat ≤ 57)

def digitVal (c : Char) : Nat := c.toNat - 48

def twoDigits (a b : Char) : Nat := 10 * digitVal a + digitVal b

def isLeapYear (y : Nat) : Bool :=
  decide (y % 4 = 0 ∧ (y % 100 ≠ 0 ∨ y % 400 = 0))

def daysInMonth (y m : Nat) : Nat :=
  if m = 2 then (if isLeapYear y then 29 else 28)
  else if m = 4 ∨ m = 6 ∨ m = 9 ∨ m = 11 then 30
  else 31

/-- `v.replace("'", "")`. -/
def stripApos (s : List Char) : List Char :=
  s.filter (fun c => decide (c ≠ aposChar))

structure DateFields where
  year : Nat
  month : Nat
  day : Nat
  hour : Nat
  minute : Nat
  second : Nat
  tzNeg : Bool
  tzHour : Nat
  tzMin : Nat
  deriving DecidableEq

/-- The `%z` directive of `datetime.strptime` (which requires an offset to be
present): `±HHMM`, `±HH:MM` or `Z`.  `datetime.timezone` additionally rejects
offsets of 24 hours or more, which is folded into this parser since a failed
construction surfaces as the same `ValueError` the caller catches. -/
def parseTzOffset : List Char → Option (Bool × Nat × Nat)
  | [z] => if z = 'Z' then some (false, 0, 0) else none
  | [sg, a, b, c, d] =>
    if (sg = '+' ∨ sg = '-') ∧ isDigitChar a = true ∧ isDigitChar b = true ∧
        isDigitChar c = true ∧ isDigitChar d = true ∧
        twoDigits a b ≤ 23 ∧ twoDigits c d ≤ 59 then
      some (decide (sg = '-'), twoDigits a b, twoDigits c d)
    else none
  | [sg, a, b, e, c, d] =>
    if (sg = '+' ∨ sg = '-') ∧ e = ':' ∧ isDigitChar a = true ∧
        isDigitChar b = true ∧ isDigitChar c = true ∧ isDigitChar d = true ∧
        twoDigits a b ≤ 23 ∧ twoDigits c d ≤ 59 then
      some (decide (sg = '-'), twoDigits a b, twoDigits c d)
    else none
  | _ => none

/-- The shape match of `datetime.strptime(v.replace("'", ""),
"D:%Y%m%d%H%M%S%z")`: literal `D:`, fourteen digits, then a timezone offset.
This models the external stdlib parser at the granularity of the fixed-width
PDF date convention the code feeds it. -/
def pdfDateFields (s : List Char) : Option DateFields :=
  match stripApos s with
  | cD :: cc :: y1 :: y2 :: y3 :: y4 :: mo1 :: mo2 :: da1 :: da2 ::
      h1 :: h2 :: mi1 :: mi2 :: se1 :: se2 :: tzRest =>
    if cD = 'D' ∧ cc = ':' ∧
        ([y1, y2, y3, y4, mo1, mo2, da1, da2, h1, h2, mi1, mi2, se1,
          se2].all isDigitChar = true) then
      (parseTzOffset tzRest).map fun z =>
        { year := 1000 * digitVal y1 + 100 * digitVal y2 + 10 * digitVal y3
            + digitVal y4
          month := twoDigits mo1 mo2
          day := twoDigits da1 da2
          hour := twoDigits h1 h2
          minute := twoDigits mi1 mi2
          second := twoDigits se1 se2
          tzNeg := z.1
          tzHour := z.2.1
          tzMin := z.2.2 }
    else none
  | _ => none

/-- The range validation `datetime.__new__` performs on the matched fields
(a failure raises the `ValueError` the caller catches). -/
def validDateTime (f : DateFields) : Bool :=
  decide (1 ≤ f.year ∧ 1 ≤ f.month ∧ f.month ≤ 12 ∧ 1 ≤ f.day ∧
    f.day ≤ daysInMonth f.year f.month ∧ f.hour ≤ 23 ∧ f.minute ≤ 59 ∧
    f.second ≤ 59)

/-- Zero-padded decimal rendering. -/
def padNum (width n : Nat) : List Char :=
  let ds := Nat.toDigits 10 n
  List.replicate (width - ds.length) '0' ++ ds

/-- `datetime.isoformat("T")` for a timezone-aware datetime with a
whole-minute offset. -/
def isoFormatDate (f : DateFields) : List Char :=
  padNum 4 f.year ++ "-".data ++ padNum 2 f.month ++ "-".data ++
    padNum 2 f.day ++ "T".data ++ padNum 2 f.hour ++ ":".data ++
    padNum 2 f.minute ++ ":".data ++ padNum 2 f.second ++
    (if f.tzNeg ∧ (f.tzHour ≠ 0 ∨ f.tzMin ≠ 0) then "-".data else "+".data) ++
    padNum 2 f.tzHour ++ ":".data ++ padNum 2 f.tzMin

/-- `datetime.strptime(v.replace("'", ""), "D:%Y%m%d%H%M%S%z").isoformat("T")`
as an `Option`: `none` models the raised `ValueError`. -/
def pdfDateParse (s : List Char) : Option (List Char) :=
  (pdfDateFields s).bind fun f =>
    if validDateTime f then some (isoFormatDate f) else none

/-- Whether a value matches the PDF date pattern the parser consumes. -/
def matchesPdfDatePattern (s : List Char) : Bool :=
  (pdfDateFields s).isSome

/-- ASCII whitespace for Python `str.strip()`. -/
def isPySpace (c : Char) : Bool :=
  decide (c = ' ' ∨ c = '\t' ∨ c = '\n' ∨ c = '\r' ∨ c = Char.ofNat 11 ∨
    c = Char.ofNat 12)

/-- Python `v.strip()`. -/
def stripSpaces (s : List Char) : List Char :=
  ((s.dropWhile isPySpace).reverse.dropWhile isPySpace).reverse

/-- `map_key = {"page_count": "total_pages", "file_path": "source"}`. -/
def mapKeyTarget (k : List Char) : List Char :=
  if k = "page_count".data then "total_pages".data else "source".data

/-- The branch dispatch of `_purge_metadata`'s loop body on the already
normalized key `k` and coerced value `v`.  `none` models the uncaught
`AttributeError` raised by `v.replace` when a creation/modification-date key
carries an `int` value (only `ValueError` is caught there). -/
def purgeEntryCore (acc : Meta) (k : List Char) (v : PValue) : Option Meta :=
  if k = "creationdate".data ∨ k = "moddate".data then
    match v with
    | PValue.pstr s =>
      some (dictInsert acc k (PValue.pstr ((pdfDateParse s).getD s)))
    | _ => none
  else if k = "page_count".data ∨ k = "file_path".data then
    some (dictInsert (dictInsert acc (mapKeyTarget k) v) k v)
  else
    match v with
    | PValue.pstr s => some (dictInsert acc k (PValue.pstr (stripSpaces s)))
    | PValue.pint n => some (dictInsert acc k (PValue.pint n))
    | _ => some acc

/-- One iteration of the `for k, v in metadata.items()` loop of
`_purge_metadata`: coerce the value, strip one leading slash and lowercase
the key, then dispatch. -/
def purgeEntry (acc : Meta) (kv : List Char × PValue) : Option Meta :=
  purgeEntryCore acc (normalizeKey kv.1) (coerceValue kv.2)

/-- `_purge_metadata(metadata)`. -/
def purgeMetadata (m : Meta) : Option Meta :=
  m.foldlM purgeEntry []

/-- `_STD_METADATA_KEYS`. -/
def stdMetadataKeys : List (List Char) :=
  ["source".data, "total_pages".data, "creationdate".data, "creator".data,
    "producer".data]

/-- Python `isinstance(v, int)` — true for `bool` as well, since `bool` is a
subclass of `int`. -/
def isInstanceInt : PValue → Bool
  | PValue.pint _ => true
  | PValue.pbool _ => true
  | _ => false

/-- `_validate_metadata(metadata)`: `Except.error` models the raised
`ValueError`s, in the order the checks are written. -/
def validateMetadata (m : Meta) : Except (List Char) Meta :=
  if stdMetadataKeys.all (fun k => (dictFind m k).isSome) then
    if isInstanceInt ((dictFind m "page".data).getD (PValue.pint 0)) then
      Except.ok m
    else Except.error "The PDF metadata page must be a integer.".data
  else Except.error "The PDF parser must valorize the standard metadata.".data

/-! ### Helper lemmas about characters and dict insertion -/

theorem toNat_ofNat_small (m : Nat) (hm : m < 55296) :
    (Char.ofNat m).toNat = m := by
  have hv : m.isValidChar := Or.inl hm
  simp [Char.ofNat, hv, Char.ofNatAux, Char.toNat, UInt32.toNat, BitVec.ofNatLt]

theorem lowerChar_eq_self (c : Char) (h : ¬ (65 ≤ c.toNat ∧ c.toNat ≤ 90)) :
    lowerChar c = c := by
  unfold lowerChar
  exact if_neg h

theorem lowerChar_toNat (c : Char) :
    lowerChar c = c ∨ (97 ≤ (lowerChar c).toNat ∧ (lowerChar c).toNat ≤ 122) := by
  unfold lowerChar
  split
  · rename_i h
    right
    rw [toNat_ofNat_small (c.toNat + 32) (by omega)]
    omega
  · left; rfl

theorem lowerChar_lowerChar (c : Char) : lowerChar (lowerChar c) = lowerChar c := by
  rcases lowerChar_toNat c with h | h
  · rw [h]
    exact h
  · exact lowerChar_eq_self _ (by omega)

theorem lowerChar_ne_slash {c : Char} (h : c ≠ '/') : lowerChar c ≠ '/' := by
  rcases lowerChar_toNat c with h2 | h2
  · rw [h2]; exact h
  · intro hc
    rw [hc] at h2
    exact absurd h2 (by decide)

/-- `k.startswith("/")`. -/
def startsWithSlash : List Char → Bool
  | [] => false
  | c :: _ => decide (c = '/')

/-- A key beginning with two slashes, the case `_purge_metadata`'s single
`k[1:]` strip does not fully clean. -/
def startsWithTwoSlashes : List Char → Bool
  | a :: b :: _ => decide (a = '/' ∧ b = '/')
  | _ => false

/-- Values of string or integer type (`type(v) in [str, int]`). -/
def isStrOrInt : PValue → Bool
  | PValue.pstr _ => true
  | PValue.pint _ => true
  | _ => false

theorem isStrOrInt_coerceValue (v : PValue) :
    isStrOrInt (coerceValue v) = true := by
  cases v <;> rfl

theorem mem_dictInsert {d : Meta} {k : List Char} {v : PValue}
    {p : List Char × PValue} (h : p ∈ dictInsert d k v) :
    p ∈ d ∨ p = (k, v) := by
  unfold dictInsert at h
  split at h
  · obtain ⟨q, hq, hqe⟩ := List.mem_map.mp h
    by_cases hqk : q.1 = k
    · right
      rw [if_pos hqk] at hqe
      exact hqe.symm
    · left
      rw [if_neg hqk] at hqe
      rw [← hqe]
      exact hq
  · rcases List.mem_append.mp h with h1 | h1
    · left; exact h1
    · right; simpa using h1

/-- The invariant each entry written by `_purge_metadata` satisfies. -/
def entryOk (p : List Char × PValue) : Prop :=
  p.1.map lowerChar = p.1 ∧ startsWithSlash p.1 = false ∧
    isStrOrInt p.2 = true

theorem normalizeKey_ok {k : List Char} (h : startsWithTwoSlashes k = false) :
    (normalizeKey k).map lowerChar = normalizeKey k ∧
      startsWithSlash (normalizeKey k) = false := by
  constructor
  · unfold normalizeKey
    rw [List.map_map]
    exact List.map_congr_left (fun c _ => lowerChar_lowerChar c)
  · cases k with
    | nil => rfl
    | cons a rest =>
      by_cases ha : a = '/'
      · subst ha
        cases rest with
        | nil => rfl
        | cons b rs =>
          have hb : b ≠ '/' := by
            intro hb
            unfold startsWithTwoSlashes at h
            simp [hb] at h
          simp [normalizeKey, stripOneSlash, startsWithSlash,
            lowerChar_ne_slash hb]
      · simp [normalizeKey, stripOneSlash, startsWithSlash, ha,
          lowerChar_ne_slash ha]

theorem mapKeyTarget_ok (k : List Char) :
    (mapKeyTarget k).map lowerChar = mapKeyTarget k ∧
      startsWithSlash (mapKeyTarget k) = false := by
  unfold mapKeyTarget
  split
  · exact ⟨by decide, by decide⟩
  · exact ⟨by decide, by decide⟩

theorem purgeEntry_entryOk {acc acc2 : Meta} {kv : List Char × PValue}
    (hacc : ∀ p ∈ acc, entryOk p) (hk : startsWithTwoSlashes kv.1 = false)
    (h : purgeEntry acc kv = some acc2) : ∀ p ∈ acc2, entryOk p := by
  have hkey := normalizeKey_ok hk
  unfold purgeEntry purgeEntryCore at h
  split at h
  · split at h
    · rename_i s heq
      obtain rfl : acc2 = dictInsert acc (normalizeKey kv.1)
          (PValue.pstr ((pdfDateParse s).getD s)) := by
        injection h with h2
        exact h2.symm
      intro p hp
      rcases mem_dictInsert hp with hp1 | hp1
      · exact hacc p hp1
      · subst hp1
        exact ⟨hkey.1, hkey.2, rfl⟩
    · exact absurd h (by simp)
  · split at h
    · obtain rfl : acc2 = dictInsert
          (dictInsert acc (mapKeyTarget (normalizeKey kv.1)) (coerceValue kv.2))
          (normalizeKey kv.1) (coerceValue kv.2) := by
        injection h with h2
        exact h2.symm
      intro p hp
      rcases mem_dictInsert hp with hp1 | hp1
      · rcases mem_dictInsert hp1 with hp2 | hp2
        · exact hacc p hp2
        · subst hp2
          have hmk := mapKeyTarget_ok (normalizeKey kv.1)
          exact ⟨hmk.1, hmk.2, isStrOrInt_coerceValue kv.2⟩
      · subst hp1
        exact ⟨hkey.1, hkey.2, isStrOrInt_coerceValue kv.2⟩
    · split at h
      · rename_i s heq
        obtain rfl : acc2 = dictInsert acc (normalizeKey kv.1)
            (PValue.pstr (stripSpaces s)) := by
          injection h with h2
          exact h2.symm
        intro p hp
        rcases mem_dictInsert hp with hp1 | hp1
        · exact hacc p hp1
        · subst hp1
          exact ⟨hkey.1, hkey.2, rfl⟩
      · rename_i n heq
        obtain rfl : acc2 = dictInsert acc (normalizeKey kv.1)
            (PValue.pint n) := by
          injection h with h2
          exact h2.symm
        intro p hp
        rcases mem_dictInsert hp with hp1 | hp1
        · exact hacc p hp1
        · subst hp1
          exact ⟨hkey.1, hkey.2, rfl⟩
      · rename_i heq1 heq2
        obtain rfl : acc2 = acc := by
          injection h with h2
          exact h2.symm
        exact hacc

theorem purge_fold_entryOk (m : Meta) : ∀ (acc out : Meta),
    (∀ p ∈ acc, entryOk p) →
    (∀ kv ∈ m, startsWithTwoSlashes kv.1 = false) →
    List.foldlM purgeEntry acc m = some out → ∀ p ∈ out, entryOk p := by
  induction m with
  | nil =>
    intro acc out hacc _ h
    simp only [List.foldlM_nil] at h
    obtain rfl : acc = out := by injection h
    exact hacc
  | cons x xs ih =>
    intro acc out hacc hm h
    rw [List.foldlM_cons] at h
    cases hx : purgeEntry acc x with
    | none =>
      rw [hx] at h
      exact Option.noConfusion h
    | some a2 =>
      rw [hx] at h
      exact ih a2 out
        (purgeEntry_entryOk hacc (hm x (List.mem_cons_self x xs)) hx)
        (fun kv hkv => hm kv (List.mem_cons_of_mem x hkv)) h

/-! ### Claims C6, C7, C10 -/

/-- The example PDF date value `D:20230115120000+05'00'`. -/
def pdfDateExample : List Char :=
  "D:20230115120000+05".data ++ [aposChar] ++ "00".data ++ [aposChar]

/-- C6: the entry `"/CreationDate" ↦ "D:20230115120000+05'00'"` normalizes
to the key `creationdate` holding the ISO-8601 timestamp
`"2023-01-15T12:00:00+05:00"`; and for every creation/modification-date
entry whose string value does not match the PDF date pattern, the raw value
is stored unchanged under the same lowercased (slash-stripped) key. -/
theorem purge_creationdate_spec :
    (purgeMetadata [("/CreationDate".data, PValue.pstr pdfDateExample)]
        = some [("creationdate".data,
            PValue.pstr "2023-01-15T12:00:00+05:00".data)])
    ∧ ∀ (acc : Meta) (k s : List Char),
        (normalizeKey k = "creationdate".data ∨
          normalizeKey k = "moddate".data) →
        matchesPdfDatePattern s = false →
        purgeEntry acc (k, PValue.pstr s)
          = some (dictInsert acc (normalizeKey k) (PValue.pstr s)) := by
  constructor
  · decide
  · intro acc k s hk hs
    have hparse : pdfDateParse s = none := by
      unfold pdfDateParse
      unfold matchesPdfDatePattern at hs
      cases hf : pdfDateFields s with
      | none => rfl
      | some f => rw [hf] at hs; simp at hs
    simp only [purgeEntry, purgeEntryCore, coerceValue]
    rw [if_pos hk]
    simp [hparse]

/-- Witness for C6's universal part at a concrete unparsable value. -/
theorem purge_creationdate_spec_witness :
    purgeEntry [] ("/CreationDate".data, PValue.pstr "garbage".data)
      = some (dictInsert [] (normalizeKey "/CreationDate".data)
          (PValue.pstr "garbage".data)) :=
  purge_creationdate_spec.2 [] "/CreationDate".data "garbage".data
    (Or.inl (by decide)) (by decide)

/-- A mapping holding four of the five canonical keys (missing `producer`). -/
def metaMissingProducer : Meta :=
  [("source".data, PValue.pstr "s".data),
    ("total_pages".data, PValue.pint 2),
    ("creationdate".data, PValue.pstr [] ),
    ("creator".data, PValue.pstr "c".data)]

/-- A mapping holding all five canonical keys. -/
def metaAllKeys : Meta :=
  metaMissingProducer ++ [("producer".data, PValue.pstr "p".data)]

/-- `metaAllKeys` with the string `"3"` under `page`. -/
def metaPageString : Meta :=
  metaAllKeys ++ [("page".data, PValue.pstr "3".data)]

/-- C7: `_validate_metadata` succeeds (returning the mapping unchanged)
exactly when every canonical key is present and any present `page` value is
an integer; a mapping missing `producer` raises the standard-metadata error,
and a string-valued `page` raises the page-type error. -/
theorem validate_metadata_spec :
    (∀ m : Meta,
      validateMetadata m = Except.ok m ↔
        ((∀ k ∈ stdMetadataKeys, (dictFind m k).isSome = true) ∧
          ∀ v, dictFind m "page".data = some v → isInstanceInt v = true))
    ∧ validateMetadata metaMissingProducer
        = Except.error "The PDF parser must valorize the standard metadata.".data
    ∧ validateMetadata metaPageString
        = Except.error "The PDF metadata page must be a integer.".data := by
  refine ⟨fun m => ?_, by rfl, by rfl⟩
  unfold validateMetadata
  split
  · rename_i hall
    split
    · rename_i hpage
      constructor
      · intro _
        refine ⟨fun k hk => List.all_eq_true.mp hall k hk, fun v hv => ?_⟩
        rw [hv] at hpage
        simpa using hpage
      · intro _
        rfl
    · rename_i hpage
      constructor
      · intro h
        exact absurd h (by simp)
      · rintro ⟨h1, h2⟩
        exfalso
        apply hpage
        cases hf : dictFind m "page".data with
        | none => simp [hf, isInstanceInt]
        | some v => simpa using h2 v hf
  · rename_i hall
    constructor
    · intro h
      exact absurd h (by simp)
    · rintro ⟨h1, h2⟩
      exact absurd (List.all_eq_true.mpr h1) hall

/-- Witness for C7: a mapping with all five keys and no `page` passes
through unchanged. -/
theorem validate_metadata_spec_witness :
    validateMetadata metaAllKeys = Except.ok metaAllKeys :=
  (validate_metadata_spec.1 metaAllKeys).mpr
    ⟨by decide, fun v hv => by
      have hnone : dictFind metaAllKeys "page".data = none := by decide
      rw [hnone] at hv
      exact Option.noConfusion hv⟩

/-- C10 counterexample: the input key `"//X"` has only its first slash
stripped, so the output key `"/x"` still starts with `"/"`, contradicting
the claim that no output key starts with `"/"`. -/
theorem purge_double_slash_counterexample :
    purgeMetadata [("//X".data, PValue.pint 1)]
        = some [("/x".data, PValue.pint 1)]
      ∧ startsWithSlash "/x".data = true := by
  exact ⟨by decide, by decide⟩

/-- C10 (amended): for every input mapping whose keys do not begin with two
slashes, every key of the output of `_purge_metadata` is lowercase and does
not start with `"/"` (only one leading slash is ever stripped), and every
output value is a string or an integer (any other value type having been
coerced to its string representation). -/
theorem purge_metadata_invariant (m : Meta)
    (hm : ∀ kv ∈ m, startsWithTwoSlashes kv.1 = false)
    (out : Meta) (h : purgeMetadata m = some out) :
    ∀ p ∈ out, p.1.map lowerChar = p.1 ∧ startsWithSlash p.1 = false ∧
      isStrOrInt p.2 = true :=
  purge_fold_entryOk m [] out (by simp) hm h

/-- Witness for C10's amended invariant at a concrete input. -/
theorem purge_metadata_invariant_witness :
    ("creationdate".data).map lowerChar = "creationdate".data ∧
      startsWithSlash "creationdate".data = false ∧
      isStrOrInt (PValue.pstr "2023-01-15T12:00:00+05:00".data) = true :=
  purge_metadata_invariant
    [("/CreationDate".data, PValue.pstr pdfDateExample)] (by decide)
    [("creationdate".data, PValue.pstr "2023-01-15T12:00:00+05:00".data)]
    (by decide) _
    (List.mem_singleton.mpr rfl)

/-! ## Image reconstruction

The reshape path of `PyPDFParser.extract_images_from_page` and the reshape
logic of `PyMuPDFParser._extract_images_from_page`.  Shapes are the triple
`(height, width, channels)`; `none` models the logged skip (`continue`). -/

/-- PyPDF reshape path (pdf.py lines 539-572): fail on zero size/height/
width, on a buffer length not divisible by `height*width`, and on an
inferred channel count outside `{1, 3, 4}`; otherwise reshape to
`(height, width, inferred_channels)`. -/
def reshapeRawImage (height width : Nat) (rawData : List Nat) :
    Option (Nat × Nat × Nat) :=
  if rawData.length = 0 ∨ height = 0 ∨ width = 0 then none
  else if rawData.length % (height * width) ≠ 0 then none
  else
    if rawData.length / (height * width) = 1 ∨
        rawData.length / (height * width) = 3 ∨
        rawData.length / (height * width) = 4 then
      some (height, width, rawData.length / (height * width))
    else none

/-- PyMuPDF channel normalization (pdf.py lines 1309-1332): a declared
`pix.n` in `{1,3,4}` is kept; `pix.n = 0` falls back to the inferred count
when the buffer divides evenly and the quotient is in `{1,3,4}`; any other
declared count is a skip. -/
def pymupdfChannels (height width n : Nat) (samples : List Nat) :
    Option Nat :=
  if n = 1 ∨ n = 3 ∨ n = 4 then some n
  else if n = 0 ∧ samples.length % (height * width) = 0 ∧
      (samples.length / (height * width) = 1 ∨
        samples.length / (height * width) = 3 ∨
        samples.length / (height * width) = 4) then
    some (samples.length / (height * width))
  else none

/-- PyMuPDF reshape (pdf.py lines 1334-1367) given the normalized declared
channel count: exact size match reshapes directly; otherwise an evenly
dividing buffer falls back to the inferred channel count when it lies in
`{1,3,4}`; everything else is a skip. -/
def pymupdfReshapeWith (height width : Nat) (samples : List Nat) :
    Option Nat → Option (Nat × Nat × Nat)
  | none => none
  | some channels =>
    if samples.length = height * width * channels then
      some (height, width, channels)
    else if samples.length % (height * width) = 0 then
      if samples.length / (height * width) = 1 ∨
          samples.length / (height * width) = 3 ∨
          samples.length / (height * width) = 4 then
        some (height, width, samples.length / (height * width))
      else none
    else none

/-- The full PyMuPDF image reshape logic (pdf.py lines 1301-1367). -/
def pymupdfReshape (height width n : Nat) (samples : List Nat) :
    Option (Nat × Nat × Nat) :=
  if samples.length = 0 ∨ height = 0 ∨ width = 0 then none
  else pymupdfReshapeWith height width samples
    (pymupdfChannels height width n samples)

/-- `(np_image[:, :, 3] == 255).all()` for a row-major RGBA byte buffer:
every byte at an index ≡ 3 (mod 4) equals 255. -/
def alphaAllOpaque (data : List Nat) : Bool :=
  (List.range data.length).all fun i =>
    decide (i % 4 = 3 → data.getD i 0 = 255)

/-- PIL `convert("RGB")` on a row-major RGBA buffer: drop every fourth
byte (the alpha plane). -/
def dropAlpha : List Nat → List Nat
  | r :: g :: b :: _ :: rest => r :: g :: b :: dropAlpha rest
  | l => l

/-- The opaque-alpha post-processing shared by the PyPDF and PyMuPDF image
paths (pdf.py lines 614-618 and 1381-1386): a 4-channel image whose alpha
plane is uniformly 255 is converted to RGB; otherwise it is left as is. -/
def convertOpaqueAlpha (channels : Nat) (data : List Nat) :
    Nat × List Nat :=
  if channels = 4 ∧ alphaAllOpaque data = true then (3, dropAlpha data)
  else (channels, data)

/-! ## Per-image failure policy and caption formatting -/

/-- One image object of a PyPDF page, with the outputs of the external
collaborators (Pillow decoding, PNG re-encoding size, OCR text) recorded as
input data:
* `nonImage`: an XObject whose `/Subtype` is not `/Image` (ignored);
* `badFilter`: a missing, empty or malformed `/Filter`, or an unknown
  filter name (logged, skipped);
* `pillowFail`: a Pillow-handled filter whose decode raises (logged,
  skipped);
* `pillowOk`: a Pillow-decoded image with channel count, pixel data,
  re-encoded PNG size and OCR caption;
* `rawImage`: a raw pixel payload routed to the reshape path;
* `raisesOther`: any other exception inside the per-image `try` block. -/
inductive PdfImageObj where
  | nonImage
  | badFilter
  | pillowFail
  | pillowOk (channels : Nat) (data : List Nat) (pngSize : Nat)
      (ocrText : List Char)
  | rawImage (height width : Nat) (data : List Nat) (pngSize : Nat)
      (ocrText : List Char)
  | raisesOther (msg : List Char)

/-- The body of PyPDF's per-image loop: `.error` models a raised exception
(to be caught by the wrapping `except` clauses), `.ok none` a validation
skip (`continue`), `.ok (some caption)` an appended caption (the OCR text,
as appended with the default `images_inner_format = "text"`). -/
def pypdfProcessImage : PdfImageObj → Except (List Char) (Option (List Char))
  | PdfImageObj.nonImage => Except.ok none
  | PdfImageObj.badFilter => Except.ok none
  | PdfImageObj.pillowFail => Except.ok none
  | PdfImageObj.raisesOther msg => Except.error msg
  | PdfImageObj.pillowOk _ data pngSize ocrText =>
    if data.length = 0 then Except.ok none
    else if pngSize = 0 then Except.ok none
    else Except.ok (some ocrText)
  | PdfImageObj.rawImage height width data pngSize ocrText =>
    match reshapeRawImage height width data with
    | none => Except.ok none
    | some _ =>
      if pngSize = 0 then Except.ok none else Except.ok (some ocrText)

/-- The `for obj_name in xObject` loop of PyPDF with its
`except ValueError`/`except Exception` handlers: a failing or skipped image
contributes nothing and the loop continues with the next image. -/
def pypdfImageLoop : List PdfImageObj → List (List Char)
  | [] => []
  | img :: rest =>
    match pypdfProcessImage img with
    | Except.ok (some caption) => caption :: pypdfImageLoop rest
    | _ => pypdfImageLoop rest

/-- `_FORMAT_IMAGE_STR.format(image_text=...)`: `"\n\n" + s + "\n\n"`. -/
def formatImageStr (joined : List Char) : List Char :=
  delimDouble ++ joined ++ delimDouble

/-- `_JOIN_IMAGES.join(filter(None, images))`. -/
def joinImages (captions : List (List Char)) : List Char :=
  List.intercalate "\n".data (captions.filter (fun c => !c.isEmpty))

/-- `PyPDFParser.extract_images_from_page`: empty when no images parser is
configured or the page has no `/XObject` resource; otherwise the formatted
join of the captions collected by the loop. -/
def pypdfExtractImagesFromPage (hasImagesParser hasXObject : Bool)
    (imgs : List PdfImageObj) : List Char :=
  if !hasImagesParser then []
  else if !hasXObject then []
  else formatImageStr (joinImages (pypdfImageLoop imgs))

/-- The per-page assembly of `PyPDFParser.lazy_parse`:
`_merge_text_and_extras([images_from_page], text_from_page).strip()`. -/
def pypdfPageContent (hasImagesParser hasXObject : Bool)
    (imgs : List PdfImageObj) (textFromPage : List Char) : List Char :=
  stripSpaces (mergeTextAndExtras
    [pypdfExtractImagesFromPage hasImagesParser hasXObject imgs]
    textFromPage)

/-- One image of a PyMuPDF page (`page.get_images()` entry), with the
collaborator outputs recorded as input data; `muRaises` models any
exception inside the per-image `try` block. -/
inductive MuImageObj where
  | muImage (height width n : Nat) (samples : List Nat) (pngSize : Nat)
      (ocrText : List Char)
  | muRaises (msg : List Char)

/-- The body of PyMuPDF's per-image loop. -/
def pymupdfProcessImage : MuImageObj → Except (List Char) (Option (List Char))
  | MuImageObj.muRaises msg => Except.error msg
  | MuImageObj.muImage height width n samples pngSize ocrText =>
    match pymupdfReshape height width n samples with
    | none => Except.ok none
    | some _ =>
      if pngSize = 0 then Except.ok none else Except.ok (some ocrText)

/-- The `for img_info in img_list` loop of PyMuPDF with its `except`
handlers. -/
def pymupdfImageLoop : List MuImageObj → List (List Char)
  | [] => []
  | img :: rest =>
    match pymupdfProcessImage img with
    | Except.ok (some caption) => caption :: pymupdfImageLoop rest
    | _ => pymupdfImageLoop rest

/-- `PyMuPDFParser._extract_images_from_page`: empty when no images parser
is configured; otherwise the formatted join — returned even when the
page's image list is empty. -/
def pymupdfExtractImagesFromPage (hasImagesParser : Bool)
    (imgs : List MuImageObj) : List Char :=
  if !hasImagesParser then []
  else formatImageStr (joinImages (pymupdfImageLoop imgs))

/-! ## PDFPlumber's image loop (no per-image handler) -/

/-- An item appended by PDFPlumber's loop: a decoded pixel array (kept as
its shape) or raw encoded bytes. -/
inductive PlumberItem where
  | arrItem (height width channels : Nat)
  | bytesItem (data : List Nat)
  deriving DecidableEq

/-- One entry of `page.images` as the loop reads it. -/
structure PlumberImg where
  filterName : List Char
  bits : Nat
  width : Nat
  height : Nat
  data : List Nat

/-- `_PDF_FILTER_WITHOUT_LOSS`. -/
def pdfFilterWithoutLoss : List (List Char) :=
  ["LZWDecode".data, "LZW".data, "FlateDecode".data, "Fl".data,
    "ASCII85Decode".data, "A85".data, "ASCIIHexDecode".data, "AHx".data,
    "RunLengthDecode".data, "RL".data, "CCITTFaxDecode".data, "CCF".data,
    "JBIG2Decode".data]

/-- `_PDF_FILTER_WITH_LOSS`. -/
def pdfFilterWithLoss : List (List Char) :=
  ["DCTDecode".data, "DCT".data, "JPXDecode".data]

/-- The body of `PDFPlumberParser._extract_images_from_page`'s loop, which
has NO per-image exception handler, so `.error` models an uncaught raise.
The `bits = 1` branch models PIL `Image.frombytes("1", ...)` (raising when
the buffer is shorter than the packed 1-bit plane); the other branch models
`np.frombuffer(...).reshape(H, W, -1)`, which raises `ValueError` when the
buffer length is not divisible by `H*W`.  An unknown filter only warns and
appends nothing. -/
def plumberProcessImage (img : PlumberImg) :
    Except (List Char) (Option PlumberItem) :=
  if img.filterName ∈ pdfFilterWithoutLoss then
    if img.bits = 1 then
      if img.height * ((img.width + 7) / 8) ≤ img.data.length then
        Except.ok (some (PlumberItem.arrItem img.height img.width 1))
      else Except.error "not enough image data".data
    else
      if img.height * img.width ≠ 0 ∧
          img.data.length % (img.height * img.width) = 0 then
        Except.ok (some (PlumberItem.arrItem img.height img.width
          (img.data.length / (img.height * img.width))))
      else Except.error "cannot reshape array".data
  else if img.filterName ∈ pdfFilterWithLoss then
    Except.ok (some (PlumberItem.bytesItem img.data))
  else Except.ok none

/-- The `for img in page.images` loop of PDFPlumber: with no handler, an
error propagates and aborts the whole extraction. -/
def plumberExtractImages : List PlumberImg →
    Except (List Char) (List PlumberItem)
  | [] => Except.ok []
  | img :: rest =>
    match plumberProcessImage img with
    | Except.error e => Except.error e
    | Except.ok none => plumberExtractImages rest
    | Except.ok (some it) =>
      match plumberExtractImages rest with
      | Except.error e => Except.error e
      | Except.ok its => Except.ok (it :: its)

/-- The `page_content` assembly of `PDFPlumberParser.lazy_parse`
(`_process_page_content(page) + "\n" + _extract_images_from_page(page)`),
with the OCR collaborator abstracted as a function of the collected items.
An error from the image loop propagates: no page record is produced. -/
def plumberPageContent (ocr : List PlumberItem → List Char)
    (text : List Char) (imgs : List PlumberImg) :
    Except (List Char) (List Char) :=
  match plumberExtractImages imgs with
  | Except.error e => Except.error e
  | Except.ok items => Except.ok (text ++ "\n".data ++ ocr items)

/-! ### Claims C1, C2, C8, C9 -/

/-- C1 counterexample: on the PyMuPDF path a buffer of length `1*1*3 = 3`
with declared channel count `pix.n = 2` (e.g. grayscale+alpha) is skipped,
even though the length is `h*w*c` for `c = 3 ∈ {1,3,4}` — contradicting the
claim that reconstruction succeeds for every such payload. -/
theorem reshape_claim_counterexample :
    pymupdfReshape 1 1 2 [7, 7, 7] = none
      ∧ ([7, 7, 7] : List Nat).length = 1 * 1 * 3 := by
  exact ⟨by decide, by decide⟩

/-- C1 (amended): with positive height and width, a raw-pixel buffer of
length `h*w*c` with `c ∈ {1,3,4}` reshapes to `(h,w,c)` on the PyPDF path
unconditionally, and on the PyMuPDF path whenever the declared channel
count is in `{0,1,3,4}`; on both paths the image is skipped (no exception)
when the length is zero, `h*w` is zero, the length is not divisible by
`h*w`, or the quotient is outside `{1,3,4}`. -/
theorem reshape_spec :
    (∀ (h w c : Nat) (data : List Nat), 0 < h → 0 < w →
      (c = 1 ∨ c = 3 ∨ c = 4) → data.length = h * w * c →
      reshapeRawImage h w data = some (h, w, c))
    ∧ (∀ (h w : Nat) (data : List Nat),
      (data.length = 0 ∨ h * w = 0 ∨ data.length % (h * w) ≠ 0 ∨
        ¬ (data.length / (h * w) = 1 ∨ data.length / (h * w) = 3 ∨
          data.length / (h * w) = 4)) →
      reshapeRawImage h w data = none)
    ∧ (∀ (h w n c : Nat) (data : List Nat), 0 < h → 0 < w →
      (n = 0 ∨ n = 1 ∨ n = 3 ∨ n = 4) → (c = 1 ∨ c = 3 ∨ c = 4) →
      data.length = h * w * c →
      pymupdfReshape h w n data = some (h, w, c))
    ∧ (∀ (h w n : Nat) (data : List Nat),
      (data.length = 0 ∨ h * w = 0 ∨ data.length % (h * w) ≠ 0 ∨
        ¬ (data.length / (h * w) = 1 ∨ data.length / (h * w) = 3 ∨
          data.length / (h * w) = 4)) →
      pymupdfReshape h w n data = none) := by
  refine ⟨?_, ?_, ?_, ?_⟩
  · intro h w c data hh hw hc hlen
    have hhw : 0 < h * w := Nat.mul_pos hh hw
    have hc0 : 0 < c := by rcases hc with rfl | rfl | rfl <;> omega
    have hlp : 0 < data.length := by
      rw [hlen]; exact Nat.mul_pos hhw hc0
    have e1 : data.length % (h * w) = 0 := by
      rw [hlen]; exact Nat.mul_mod_right _ _
    have e2 : data.length / (h * w) = c := by
      rw [hlen]; exact Nat.mul_div_cancel_left _ hhw
    unfold reshapeRawImage
    rw [if_neg (by push_neg; refine ⟨by omega, by omega, by omega⟩),
      if_neg (by simp [e1]), if_pos (by rw [e2]; exact hc), e2]
  · intro h w data hskip
    unfold reshapeRawImage
    by_cases hz : data.length = 0 ∨ h = 0 ∨ w = 0
    · rw [if_pos hz]
    · rw [if_neg hz]
      push_neg at hz
      obtain ⟨hl0, hh0, hw0⟩ := hz
      have hhw : 0 < h * w :=
        Nat.mul_pos (Nat.pos_of_ne_zero hh0) (Nat.pos_of_ne_zero hw0)
      by_cases hmod : data.length % (h * w) = 0
      · rw [if_neg (by simp [hmod])]
        have hq : ¬ (data.length / (h * w) = 1 ∨
            data.length / (h * w) = 3 ∨ data.length / (h * w) = 4) := by
          rcases hskip with h1 | h1 | h1 | h1
          · exact absurd h1 hl0
          · omega
          · exact absurd hmod h1
          · exact h1
        rw [if_neg hq]
      · rw [if_pos hmod]
  · intro h w n c data hh hw hn hc hlen
    have hhw : 0 < h * w := Nat.mul_pos hh hw
    have hc0 : 0 < c := by rcases hc with rfl | rfl | rfl <;> omega
    have hlp : 0 < data.length := by
      rw [hlen]; exact Nat.mul_pos hhw hc0
    have e1 : data.length % (h * w) = 0 := by
      rw [hlen]; exact Nat.mul_mod_right _ _
    have e2 : data.length / (h * w) = c := by
      rw [hlen]; exact Nat.mul_div_cancel_left _ hhw
    unfold pymupdfReshape
    rw [if_neg (by push_neg; refine ⟨by omega, by omega, by omega⟩)]
    rcases hn with rfl | hn134
    · have hch : pymupdfChannels h w 0 data
          = some (data.length / (h * w)) := by
        unfold pymupdfChannels
        rw [if_neg (by omega), if_pos ⟨rfl, e1, by rw [e2]; exact hc⟩]
      rw [hch]
      simp only [pymupdfReshapeWith]
      rw [if_pos (by rw [e2]; exact hlen), e2]
    · have hch : pymupdfChannels h w n data = some n := by
        unfold pymupdfChannels
        rw [if_pos hn134]
      rw [hch]
      simp only [pymupdfReshapeWith]
      by_cases he : data.length = h * w * n
      · have hcn : c = n :=
          Nat.eq_of_mul_eq_mul_left hhw (hlen.symm.trans he)
        subst hcn
        rw [if_pos he]
      · rw [if_neg he, if_pos e1, if_pos (by rw [e2]; exact hc), e2]
  · intro h w n data hskip
    unfold pymupdfReshape
    by_cases hz : data.length = 0 ∨ h = 0 ∨ w = 0
    · rw [if_pos hz]
    · rw [if_neg hz]
      push_neg at hz
      obtain ⟨hl0, hh0, hw0⟩ := hz
      have hhw : 0 < h * w :=
        Nat.mul_pos (Nat.pos_of_ne_zero hh0) (Nat.pos_of_ne_zero hw0)
      by_cases hmod : data.length % (h * w) = 0
      · have hq : ¬ (data.length / (h * w) = 1 ∨
            data.length / (h * w) = 3 ∨ data.length / (h * w) = 4) := by
          rcases hskip with h1 | h1 | h1 | h1
          · exact absurd h1 hl0
          · omega
          · exact absurd hmod h1
          · exact h1
        by_cases hn : n = 1 ∨ n = 3 ∨ n = 4
        · have hch : pymupdfChannels h w n data = some n := by
            unfold pymupdfChannels
            rw [if_pos hn]
          rw [hch]
          simp only [pymupdfReshapeWith]
          have hne : data.length ≠ h * w * n := by
            intro he
            apply hq
            rw [he, Nat.mul_div_cancel_left _ hhw]
            exact hn
          rw [if_neg hne, if_pos hmod, if_neg hq]
        · have hch : pymupdfChannels h w n data = none := by
            unfold pymupdfChannels
            rw [if_neg hn, if_neg (fun hand => hq hand.2.2)]
          rw [hch]
          rfl
      · by_cases hn : n = 1 ∨ n = 3 ∨ n = 4
        · have hch : pymupdfChannels h w n data = some n := by
            unfold pymupdfChannels
            rw [if_pos hn]
          rw [hch]
          simp only [pymupdfReshapeWith]
          have hne : data.length ≠ h * w * n := fun he =>
            hmod (by rw [he]; exact Nat.mul_mod_right _ _)
          rw [if_neg hne, if_neg hmod]
        · have hch : pymupdfChannels h w n data = none := by
            unfold pymupdfChannels
            rw [if_neg hn, if_neg (fun hand => hmod hand.2.1)]
          rw [hch]
          rfl

/-- Witness for C1's amended statement at concrete inputs. -/
theorem reshape_spec_witness :
    reshapeRawImage 2 2 (List.replicate 12 9) = some (2, 2, 3)
      ∧ pymupdfReshape 2 2 0 (List.replicate 16 9) = some (2, 2, 4)
      ∧ reshapeRawImage 1 1 [5, 5] = none
      ∧ pymupdfReshape 1 1 3 [5, 5] = none :=
  ⟨reshape_spec.1 2 2 3 (List.replicate 12 9) (by omega) (by omega)
      (Or.inr (Or.inl rfl)) (by decide),
    reshape_spec.2.2.1 2 2 0 4 (List.replicate 16 9) (by omega) (by omega)
      (Or.inl rfl) (Or.inr (Or.inr rfl)) (by decide),
    reshape_spec.2.1 1 1 [5, 5]
      (Or.inr (Or.inr (Or.inr (by decide)))),
    reshape_spec.2.2.2 1 1 3 [5, 5]
      (Or.inr (Or.inr (Or.inr (by decide))))⟩

/-- C2: a reconstructed 4-channel image whose alpha samples (every byte at
index ≡ 3 mod 4) all equal 255 is converted to a 3-channel RGB image (the
alpha plane dropped) before re-encoding; a 4-channel image with any alpha
sample different from 255 stays 4-channel and untouched. -/
theorem convert_opaque_alpha_spec :
    (∀ data : List Nat,
      (∀ i, i < data.length → i % 4 = 3 → data.getD i 0 = 255) →
      convertOpaqueAlpha 4 data = (3, dropAlpha data))
    ∧ (∀ (data : List Nat) (i : Nat), i < data.length → i % 4 = 3 →
      data.getD i 0 ≠ 255 →
      convertOpaqueAlpha 4 data = (4, data)) := by
  constructor
  · intro data hall
    unfold convertOpaqueAlpha
    rw [if_pos]
    refine ⟨rfl, ?_⟩
    unfold alphaAllOpaque
    rw [List.all_eq_true]
    intro i hi
    rw [decide_eq_true_eq]
    exact hall i (List.mem_range.mp hi)
  · intro data i hi hmod hne
    unfold convertOpaqueAlpha
    rw [if_neg]
    rintro ⟨-, hop⟩
    unfold alphaAllOpaque at hop
    rw [List.all_eq_true] at hop
    have := hop i (List.mem_range.mpr hi)
    rw [decide_eq_true_eq] at this
    exact hne (this hmod)

/-- Witness for C2 at concrete 2x1 RGBA buffers. -/
theorem convert_opaque_alpha_spec_witness :
    convertOpaqueAlpha 4 [1, 2, 3, 255, 4, 5, 6, 255]
        = (3, [1, 2, 3, 4, 5, 6])
      ∧ convertOpaqueAlpha 4 [1, 2, 3, 255, 4, 5, 6, 7]
        = (4, [1, 2, 3, 255, 4, 5, 6, 7]) :=
  ⟨convert_opaque_alpha_spec.1 [1, 2, 3, 255, 4, 5, 6, 255] (by decide),
    convert_opaque_alpha_spec.2 [1, 2, 3, 255, 4, 5, 6, 7] 7 (by decide)
      (by decide) (by decide)⟩

theorem pypdfImageLoop_append (xs ys : List PdfImageObj) :
    pypdfImageLoop (xs ++ ys) = pypdfImageLoop xs ++ pypdfImageLoop ys := by
  induction xs with
  | nil => rfl
  | cons a t ih =>
    rw [List.cons_append]
    cases hp : pypdfProcessImage a with
    | error e => simp [pypdfImageLoop, hp, ih]
    | ok o =>
      cases o with
      | none => simp [pypdfImageLoop, hp, ih]
      | some c => simp [pypdfImageLoop, hp, ih]

theorem pymupdfImageLoop_append (xs ys : List MuImageObj) :
    pymupdfImageLoop (xs ++ ys)
      = pymupdfImageLoop xs ++ pymupdfImageLoop ys := by
  induction xs with
  | nil => rfl
  | cons a t ih =>
    rw [List.cons_append]
    cases hp : pymupdfProcessImage a with
    | error e => simp [pymupdfImageLoop, hp, ih]
    | ok o =>
      cases o with
      | none => simp [pymupdfImageLoop, hp, ih]
      | some c => simp [pymupdfImageLoop, hp, ih]

/-- C8 counterexample: in `PDFPlumberParser._extract_images_from_page`
(cited by the claim) a single image whose buffer length (3) is not
divisible by `height*width` (2) raises out of the loop: the following valid
image is never processed and the page's text record is not produced —
contradicting the claim that every per-image failure is logged and skipped
without interrupting the page. -/
theorem plumber_failure_aborts_page :
    plumberExtractImages
        [⟨"FlateDecode".data, 8, 1, 2, [0, 0, 0]⟩,
          ⟨"FlateDecode".data, 8, 1, 1, [7]⟩]
        = Except.error "cannot reshape array".data
      ∧ plumberExtractImages [⟨"FlateDecode".data, 8, 1, 1, [7]⟩]
        = Except.ok [PlumberItem.arrItem 1 1 1]
      ∧ plumberPageContent (fun _ => "ocr".data) "T".data
          [⟨"FlateDecode".data, 8, 1, 2, [0, 0, 0]⟩]
        = Except.error "cannot reshape array".data := by
  exact ⟨rfl, rfl, rfl⟩

/-- C8 (amended): in the PyPDF image loop (and likewise PyMuPDF's), every
per-image failure — an exception caught by the `except` handlers or a
validation skip — drops only that image: the loop's captions equal those of
the list without it, the remaining images still being processed, and the
page's text record is still produced, equal to the one without the failing
image.  (PDFPlumber's loop, also cited by the claim, instead propagates the
failure — see the counterexample.) -/
theorem per_image_failure_skipped
    (pre post : List PdfImageObj) (img : PdfImageObj)
    (hfail : (∃ e, pypdfProcessImage img = Except.error e) ∨
      pypdfProcessImage img = Except.ok none)
    (hasXObject : Bool) (text : List Char)
    (mpre mpost : List MuImageObj) (mimg : MuImageObj)
    (hmfail : (∃ e, pymupdfProcessImage mimg = Except.error e) ∨
      pymupdfProcessImage mimg = Except.ok none) :
    pypdfImageLoop (pre ++ img :: post) = pypdfImageLoop (pre ++ post)
      ∧ pypdfPageContent true hasXObject (pre ++ img :: post) text
        = pypdfPageContent true hasXObject (pre ++ post) text
      ∧ pymupdfImageLoop (mpre ++ mimg :: mpost)
        = pymupdfImageLoop (mpre ++ mpost) := by
  have hone : pypdfImageLoop [img] = [] := by
    rcases hfail with ⟨e, he⟩ | he <;> simp [pypdfImageLoop, he]
  have hmone : pymupdfImageLoop [mimg] = [] := by
    rcases hmfail with ⟨e, he⟩ | he <;> simp [pymupdfImageLoop, he]
  have hloop : pypdfImageLoop (pre ++ img :: post)
      = pypdfImageLoop (pre ++ post) := by
    have h1 : pre ++ img :: post = pre ++ [img] ++ post := by simp
    rw [h1, pypdfImageLoop_append, pypdfImageLoop_append, hone,
      pypdfImageLoop_append]
    simp
  refine ⟨hloop, ?_, ?_⟩
  · unfold pypdfPageContent pypdfExtractImagesFromPage
    rw [hloop]
  · have h1 : mpre ++ mimg :: mpost = mpre ++ [mimg] ++ mpost := by simp
    rw [h1, pymupdfImageLoop_append, pymupdfImageLoop_append, hmone,
      pymupdfImageLoop_append]
    simp

/-- Witness for C8's amended statement: a raising image between two valid
ones is dropped, with the loop and page content unchanged. -/
theorem per_image_failure_skipped_witness :
    pypdfImageLoop
        [PdfImageObj.pillowOk 3 [1] 10 "a".data,
          PdfImageObj.raisesOther "boom".data,
          PdfImageObj.pillowOk 3 [2] 10 "b".data]
      = pypdfImageLoop
        [PdfImageObj.pillowOk 3 [1] 10 "a".data,
          PdfImageObj.pillowOk 3 [2] 10 "b".data]
      ∧ pypdfPageContent true true
          [PdfImageObj.pillowOk 3 [1] 10 "a".data,
            PdfImageObj.raisesOther "boom".data,
            PdfImageObj.pillowOk 3 [2] 10 "b".data] "T".data
        = pypdfPageContent true true
          [PdfImageObj.pillowOk 3 [1] 10 "a".data,
            PdfImageObj.pillowOk 3 [2] 10 "b".data] "T".data
      ∧ pymupdfImageLoop [MuImageObj.muRaises "m".data]
        = pymupdfImageLoop [] :=
  per_image_failure_skipped
    [PdfImageObj.pillowOk 3 [1] 10 "a".data]
    [PdfImageObj.pillowOk 3 [2] 10 "b".data]
    (PdfImageObj.raisesOther "boom".data)
    (Or.inl ⟨"boom".data, rfl⟩) true "T".data
    [] [] (MuImageObj.muRaises "m".data)
    (Or.inl ⟨"m".data, rfl⟩)

/-- C9: with an images parser configured and (for PyPDF) an XObject
resource present, image extraction returns `"\n\n" + joined_captions +
"\n\n"`; when no caption text survives the filter the result is the
non-empty string `"\n\n\n\n"`; the result is never empty; and handing the
`"\n\n\n\n"` block to the merger can change the page text. -/
theorem extract_images_format_spec :
    (∀ imgs : List PdfImageObj,
      pypdfExtractImagesFromPage true true imgs
          = delimDouble ++ joinImages (pypdfImageLoop imgs) ++ delimDouble
        ∧ pypdfExtractImagesFromPage true true imgs ≠ [])
    ∧ (∀ imgs : List PdfImageObj,
        (pypdfImageLoop imgs).filter (fun c => !c.isEmpty) = [] →
        pypdfExtractImagesFromPage true true imgs = "\n\n\n\n".data)
    ∧ (∀ imgs : List MuImageObj,
      pymupdfExtractImagesFromPage true imgs
          = delimDouble ++ joinImages (pymupdfImageLoop imgs) ++ delimDouble
        ∧ pymupdfExtractImagesFromPage true imgs ≠ [])
    ∧ mergeTextAndExtras ["\n\n\n\n".data] "A".data ≠ "A".data := by
  refine ⟨fun imgs => ⟨rfl, ?_⟩, fun imgs hf => ?_, fun imgs => ⟨rfl, ?_⟩,
    by decide⟩
  · simp [pypdfExtractImagesFromPage, formatImageStr, delimDouble]
  · unfold pypdfExtractImagesFromPage joinImages
    rw [hf]
    rfl
  · simp [pymupdfExtractImagesFromPage, formatImageStr, delimDouble]

/-- Witness for C9 at the empty image list: the extraction returns the
non-empty `"\n\n\n\n"`. -/
theorem extract_images_format_spec_witness :
    pypdfExtractImagesFromPage true true [] = "\n\n\n\n".data :=
  extract_images_format_spec.2.1 [] rfl

end PdfParsers
